import Mathlib

/-!
# Verification of the svelte-immer store (`src/store.js`)

A shallow embedding of the Redux-like store of this repository.  The state
cell holds a single `AppState`; atomic actions are draft editors that either
produce a new state or fail (a JavaScript exception); the composite routine
`requestNewNumbersFromAPI` is modelled as the ordered script of dispatches it
performs.  Randomness (`Math.random() * 100`) is modelled by passing the
drawn value as an explicit oracle argument.
-/

namespace Store

/-- One element of `state.randomNumbers`: `{value: <float>, id: <integer>}`.
The floating-point payload is modelled as a rational (its exact value never
matters to the store logic); ids are JavaScript numbers that the code only
ever produces as integers, modelled as `Int`. -/
structure RandomEntry where
  value : ℚ
  id : Int
deriving DecidableEq, Repr

/-- The application state.  `initStore` in `store.js` has no `isWaiting`
field, and the field springs into existence at the first
`setAPIWaitingStatus` dispatch; a possibly-absent JavaScript field is
modelled as `Option Bool` (`none` = the field is absent / reads as
`undefined`).  There is no `product` field: `store.js` never stores one. -/
structure AppState where
  channel : String
  os : String
  randomNumbers : List RandomEntry
  isWaiting : Option Bool := none
deriving DecidableEq, Repr

/-- The static option catalog exported by `store.js`. -/
structure Options where
  product : List String
  channel : List String
  os : List String
  randomNumbers : List RandomEntry
  isWaiting : Bool
deriving DecidableEq, Repr

/-- `options` from `store.js`. -/
def options : Options :=
  { product := ["firefox", "fenix"]
    channel := ["release", "beta", "nightly"]
    os := ["mac", "windows", "linux"]
    randomNumbers := []
    isWaiting := false }

/-- `initStore` from `store.js`: `{channel: 'release', os: 'mac',
randomNumbers: []}` — note the absence of `isWaiting`. -/
def initStore : AppState :=
  { channel := "release", os := "mac", randomNumbers := [] }

/-- A JavaScript runtime error thrown by a draft editor. -/
inductive JsError where
  | typeError (msg : String)
deriving DecidableEq, Repr

/-- An atomic action: a draft-editing function.  In the source a draft
editor mutates a proxy of the state in place and may throw; in the value
semantics it maps the state to either the edited state or the thrown
error. -/
abbrev Editor := AppState → Except JsError AppState

/-- Modelled from the spec: immer's `produce(base, editor)` (an external
library, not part of `src/`).  It applies the draft editor to the base
state and returns the new state, or propagates the editor's failure
without publishing any partial result; the base value is never mutated,
which in a value semantics holds by construction. -/
def produce (base : AppState) (editor : Editor) : Except JsError AppState :=
  editor base

/-- The atomic branch of `dispatch` in `store.js`:
`STORE.update(state => produce(state, func))`.  The result pairs what the
call site observes (the value or the propagated exception) with the state
stored in the cell afterwards; a svelte writable whose update function
throws keeps its previous value. -/
def dispatch (func : Editor) (s : AppState) : Except JsError AppState × AppState :=
  match produce s func with
  | .ok s2 => (.ok s2, s2)
  | .error e => (.error e, s)

/-- `getNextId` from `store.js`:
`if (!arr.length) return 0; return Math.max(...arr.map(it => it.id), 0) + 1`.
`Math.max(a₁, …, aₙ, 0)` is the right fold of `max` over the ids with
initial value `0`. -/
def getNextId (arr : List RandomEntry) : Int :=
  if arr.length = 0 then 0
  else (arr.map (fun it => it.id)).foldr max 0 + 1

/-- `changeChannel = (ch) => draft => { draft.channel = ch }`. -/
def changeChannel (ch : String) : Editor := fun draft =>
  .ok { draft with channel := ch }

/-- `changeOS = (os) => draft => { draft.os = os }`. -/
def changeOS (os : String) : Editor := fun draft =>
  .ok { draft with os := os }

/-- `clearRandomNumbers = () => draft => { draft.randomNumbers = [] }`. -/
def clearRandomNumbers : Editor := fun draft =>
  .ok { draft with randomNumbers := [] }

/-- `addRandomNumber = () => draft => { draft.randomNumbers.push({value:
randomNumber(), id: getNextId(draft.randomNumbers)}) }`.  The value drawn
by `randomNumber()` is the oracle argument `v`. -/
def addRandomNumber (v : ℚ) : Editor := fun draft =>
  .ok { draft with randomNumbers :=
          draft.randomNumbers ++ [{ value := v, id := getNextId draft.randomNumbers }] }

/-- `randomizeNumber = (id) => draft => { const ind =
draft.randomNumbers.findIndex(r => r.id === id);
draft.randomNumbers[ind].value = randomNumber() }`.  When no entry
matches, `findIndex` returns `-1`, `draft.randomNumbers[-1]` is
`undefined`, and the assignment throws a `TypeError`.  The fresh random
value is the oracle argument `v`. -/
def randomizeNumber (id : Int) (v : ℚ) : Editor := fun draft =>
  match draft.randomNumbers.findIdx? (fun r => r.id = id) with
  | some ind =>
    .ok { draft with randomNumbers :=
            draft.randomNumbers.modify (fun r => { r with value := v }) ind }
  | none => .error (.typeError "Cannot set properties of undefined (setting value)")

/-- `deleteRandomNumber = id => draft => { draft.randomNumbers =
draft.randomNumbers.filter(r => r.id !== id) }`. -/
def deleteRandomNumber (id : Int) : Editor := fun draft =>
  .ok { draft with randomNumbers := draft.randomNumbers.filter (fun r => r.id != id) }

/-- `setAPIWaitingStatus = tf => draft => { draft.isWaiting = tf }`. -/
def setAPIWaitingStatus (tf : Bool) : Editor := fun draft =>
  .ok { draft with isWaiting := some tf }

/-- The catalog of atomic actions exported by `store.js`, as a tagged
union (each random draw appears as an explicit oracle argument). -/
inductive Action where
  | changeChannel (ch : String)
  | changeOS (os : String)
  | clearRandomNumbers
  | addRandomNumber (v : ℚ)
  | randomizeNumber (id : Int) (v : ℚ)
  | deleteRandomNumber (id : Int)
  | setAPIWaitingStatus (tf : Bool)
deriving DecidableEq, Repr

/-- The draft editor an action constructs. -/
def Action.editor : Action → Editor
  | .changeChannel ch => Store.changeChannel ch
  | .changeOS os => Store.changeOS os
  | .clearRandomNumbers => Store.clearRandomNumbers
  | .addRandomNumber v => Store.addRandomNumber v
  | .randomizeNumber id v => Store.randomizeNumber id v
  | .deleteRandomNumber id => Store.deleteRandomNumber id
  | .setAPIWaitingStatus tf => Store.setAPIWaitingStatus tf

/-- The state stored after dispatching action `a` on state `s` (unchanged
when the editor throws). -/
def stepAction (s : AppState) (a : Action) : AppState :=
  (dispatch a.editor s).2

/-- One step of the composite routine `requestNewNumbersFromAPI`: either a
dispatch of an atomic action, or the suspension
`await new Promise(resolve => setTimeout(resolve, ms))`. -/
inductive Step where
  | act (a : Action)
  | delay (ms : Nat)
deriving DecidableEq, Repr

/-- Running one step: a dispatch updates the stored state, the suspension
leaves it untouched (no interleaved external dispatches). -/
def runStep (s : AppState) : Step → AppState
  | .act a => stepAction s a
  | .delay _ => s

/-- Running a script of steps in order from state `s`. -/
def runScript (s : AppState) (steps : List Step) : AppState :=
  steps.foldl runStep s

/-- `requestNewNumbersFromAPI = () => async (dispatch) => { ... }` from
`store.js`: clear the list, set the waiting flag, suspend 1000 ms, dispatch
`addRandomNumber` ten times (`new Array(10).fill(null).map(...)`), clear
the waiting flag.  `rand i` is the value drawn by the i-th
`randomNumber()` call. -/
def requestNewNumbersFromAPI (rand : Nat → ℚ) : List Step :=
  [Step.act .clearRandomNumbers, Step.act (.setAPIWaitingStatus true), Step.delay 1000]
    ++ (List.range 10).map (fun i => Step.act (.addRandomNumber (rand i)))
    ++ [Step.act (.setAPIWaitingStatus false)]

/-- `serverParams = derived(STORE, $st => ({os: $st.os, channel: $st.channel}))`:
the projection, as the ordered field list of the JavaScript object literal. -/
def serverParams (s : AppState) : List (String × String) :=
  [("os", s.os), ("channel", s.channel)]

/-- Lexicographic comparison of character sequences by code unit — the
order induced by `Array.prototype.sort`'s default comparator (which
compares strings by UTF-16 code units; on ASCII keys this is plain
lexicographic order). -/
def codeUnitsLt : List Char → List Char → Bool
  | [], [] => false
  | [], _ :: _ => true
  | _ :: _, [] => false
  | c :: cs, d :: ds =>
    if c.toNat < d.toNat then true
    else if d.toNat < c.toNat then false
    else codeUnitsLt cs ds

/-- The string order of `Array.prototype.sort`'s default comparator. -/
def strLt (a b : String) : Bool :=
  codeUnitsLt a.data b.data

/-- Insertion of a key into a sorted key list (ascending in `strLt`). -/
def insertSorted (x : String) : List String → List String
  | [] => [x]
  | y :: ys => if strLt x y then x :: y :: ys else y :: insertSorted x ys

/-- `Object.keys($params).sort()`: sorting the key list. -/
def sortKeys : List String → List String
  | [] => []
  | k :: ks => insertSorted k (sortKeys ks)

/-- `queryString = derived(serverParams, $params => { const keys =
Object.keys($params).sort(); return keys.map(k => k + "=" + $params[k]).join("&") })`,
with the parameter object as an ordered field list.  (`$params[k]` always
finds `k`, since `k` comes from `Object.keys($params)`; the `getD` default
mirrors JavaScript's stringified `undefined` and is never reached.) -/
def queryStringOf (params : List (String × String)) : String :=
  let keys := sortKeys (params.map (fun p => p.1))
  String.intercalate "&" (keys.map (fun k => k ++ "=" ++ ((params.lookup k).getD "undefined")))

/-- The derived `queryString` view as a function of the state. -/
def queryString (s : AppState) : String :=
  queryStringOf (serverParams s)

/-- The id sequence of the `randomNumbers` list. -/
def ids (s : AppState) : List Int :=
  s.randomNumbers.map (fun e => e.id)

/-- The data-model invariant of §3 of the spec: `randomNumbers` entries
have unique, non-negative integer ids. -/
def Inv (s : AppState) : Prop :=
  (ids s).Nodup ∧ ∀ x ∈ ids s, 0 ≤ x

instance (s : AppState) : Decidable (Inv s) := by
  unfold Inv; infer_instance

/-- The next id as §3/§4.2 of the spec state it: `0` when the list is
empty, otherwise `1 + max(existing ids)`. -/
def specNextId (arr : List RandomEntry) : Int :=
  match (arr.map (fun it => it.id)).maximum with
  | none => 0
  | some m => 1 + m

/-- Whether an action writes the `channel` path. -/
def touchesChannel : Action → Bool
  | .changeChannel _ => true
  | _ => false

/-- Whether an action writes the `os` path. -/
def touchesOS : Action → Bool
  | .changeOS _ => true
  | _ => false

/-- Whether an action writes the `randomNumbers` path. -/
def touchesRandomNumbers : Action → Bool
  | .clearRandomNumbers | .addRandomNumber _ | .randomizeNumber _ _ | .deleteRandomNumber _ => true
  | _ => false

/-- Whether an action writes the `isWaiting` path. -/
def touchesIsWaiting : Action → Bool
  | .setAPIWaitingStatus _ => true
  | _ => false

/-! ## Auxiliary lemmas -/

theorem mem_le_foldr_max (b : Int) (l : List Int) : ∀ x ∈ l, x ≤ l.foldr max b := by
  induction l with
  | nil => simp
  | cons a t ih =>
    intro x hx
    rcases List.mem_cons.mp hx with h | h
    · exact h ▸ le_max_left _ _
    · exact le_trans (ih x h) (le_max_right _ _)

theorem init_le_foldr_max (b : Int) (l : List Int) : b ≤ l.foldr max b := by
  induction l with
  | nil => simp
  | cons a t ih => exact le_trans ih (le_max_right _ _)

theorem lt_getNextId (arr : List RandomEntry) (e : RandomEntry) (he : e ∈ arr) :
    e.id < getNextId arr := by
  have hne : ¬ arr.length = 0 := by
    cases arr with
    | nil => simp at he
    | cons a t => simp
  have hle : e.id ≤ (arr.map (fun it => it.id)).foldr max 0 :=
    mem_le_foldr_max 0 _ e.id (List.mem_map_of_mem _ he)
  unfold getNextId
  rw [if_neg hne]
  omega

theorem getNextId_nonneg (arr : List RandomEntry) : 0 ≤ getNextId arr := by
  unfold getNextId
  split
  · exact le_refl 0
  · have := init_le_foldr_max 0 (arr.map (fun it => it.id))
    omega

theorem foldr_max_eq_maximum (l : List Int) (hne : l ≠ []) (h : ∀ x ∈ l, 0 ≤ x) :
    l.maximum = some (l.foldr max 0) := by
  induction l with
  | nil => exact absurd rfl hne
  | cons a t ih =>
    cases t with
    | nil =>
      have ha : 0 ≤ a := h a (by simp)
      rw [List.maximum_singleton]
      show (a : WithBot Int) = some (max a 0)
      rw [max_eq_left ha]
      rfl
    | cons b t2 =>
      rw [List.maximum_cons,
        ih (by simp) (fun x hx => h x (List.mem_cons_of_mem _ hx))]
      show max (a : WithBot Int) ((b :: t2).foldr max 0 : Int) =
        ((max a ((b :: t2).foldr max 0) : Int) : WithBot Int)
      rw [WithBot.coe_max]

theorem getNextId_eq_specNextId (arr : List RandomEntry) (h : ∀ e ∈ arr, 0 ≤ e.id) :
    getNextId arr = specNextId arr := by
  cases arr with
  | nil => rfl
  | cons a t =>
    have hmax : ((a :: t).map (fun it => it.id)).maximum =
        some (((a :: t).map (fun it => it.id)).foldr max 0) := by
      refine foldr_max_eq_maximum _ (by simp) ?_
      intro x hx
      obtain ⟨e, he, heq⟩ := List.mem_map.mp hx
      exact heq ▸ h e he
    unfold getNextId specNextId
    rw [hmax]
    simp only [List.length_cons, if_neg (Nat.succ_ne_zero _)]
    omega

theorem ids_modify_value (l : List RandomEntry) (v : ℚ) : ∀ i : Nat,
    (l.modify (fun r => { r with value := v }) i).map (fun e => e.id) =
      l.map (fun e => e.id) := by
  induction l with
  | nil => intro i; cases i <;> rfl
  | cons a t ih =>
    intro i
    cases i with
    | zero => rfl
    | succ n =>
      show a.id :: (t.modify (fun r => { r with value := v }) n).map (fun e => e.id) =
        a.id :: t.map (fun e => e.id)
      exact congrArg _ (ih n)

example : getNextId [] = 0 := by decide
example : getNextId [{ value := 1, id := 0 }] = 1 := by decide
example : stepAction initStore (.addRandomNumber 7) =
    { initStore with randomNumbers := [{ value := 7, id := 0 }] } := by decide
example : queryString { initStore with channel := "beta" } = "channel=beta&os=mac" := by decide
example : queryStringOf [("channel", "beta"), ("os", "mac")] = "channel=beta&os=mac" := by decide
example (a b : String) :
    queryStringOf [("os", a), ("channel", b)] = queryStringOf [("channel", b), ("os", a)] := rfl
example : Inv initStore := by decide
set_option maxHeartbeats 1000000 in
example (rand : Nat → ℚ) (s : AppState) :
    ids (runScript s (requestNewNumbersFromAPI rand)) = [0, 1, 2, 3, 4, 5, 6, 7, 8, 9] := by
  simp [requestNewNumbersFromAPI, runScript, runStep, stepAction, dispatch, produce,
    Action.editor, clearRandomNumbers, setAPIWaitingStatus, addRandomNumber, getNextId, ids,
    List.range_succ]

/-! ## Claim theorems -/

/-- C1 (counterexample): the id `0` is absent from `initStore.randomNumbers`,
yet dispatching `randomizeNumber(0)` does not complete without error:
`findIndex` returns `-1` and the write to `draft.randomNumbers[-1].value`
throws a `TypeError`. -/
theorem randomizeNumber_absent_id_not_silent :
    (0 : Int) ∉ ids initStore ∧
      (dispatch (randomizeNumber 0 37) initStore).1 =
        .error (.typeError "Cannot set properties of undefined (setting value)") :=
  ⟨by decide, rfl⟩

/-- C1 (amended): for every state and every id not present in
`state.randomNumbers`, dispatching `randomizeNumber(id)` throws a
`TypeError` that propagates to the dispatch call site; the stored state
(in particular the `randomNumbers` list) is unchanged. -/
theorem randomizeNumber_absent_id_throws (s : AppState) (id : Int) (v : ℚ)
    (h : id ∉ ids s) :
    dispatch (randomizeNumber id v) s =
      (.error (.typeError "Cannot set properties of undefined (setting value)"), s) := by
  have hn : s.randomNumbers.findIdx? (fun r => r.id = id) = none := by
    rw [List.findIdx?_eq_none_iff]
    intro r hr
    simp only [decide_eq_false_iff_not]
    intro hcontra
    exact h (hcontra ▸ List.mem_map_of_mem _ hr)
  simp [dispatch, produce, randomizeNumber, hn]

/-- Witness for C1 (amended): id `3` is absent from the initial state's
list; dispatching `randomizeNumber(3)` yields the `TypeError` and leaves
the stored state at `initStore`. -/
theorem randomizeNumber_absent_id_throws_witness :
    dispatch (randomizeNumber 3 37) initStore =
      (.error (.typeError "Cannot set properties of undefined (setting value)"), initStore) :=
  randomizeNumber_absent_id_throws initStore 3 37 (by decide)

/-- C5: if the draft-editing function fails, the atomic dispatch fails
without publishing any partial state: the stored state is exactly the
pre-dispatch state, and the error propagates synchronously to the
dispatch call site. -/
theorem dispatch_atomic_on_editor_failure (func : Editor) (s : AppState) (e : JsError)
    (h : produce s func = .error e) :
    dispatch func s = (.error e, s) := by
  simp [dispatch, h]

/-- Witness for C5: the one throwing editor of the repository,
`randomizeNumber` on an absent id, instantiates the atomicity theorem. -/
theorem dispatch_atomic_on_editor_failure_witness :
    dispatch (randomizeNumber 5 1) initStore =
      (.error (.typeError "Cannot set properties of undefined (setting value)"), initStore) :=
  dispatch_atomic_on_editor_failure (randomizeNumber 5 1) initStore _ rfl

/-- C7: dispatching `deleteRandomNumber(id)` for an id with no matching
entry leaves the state — in particular the `randomNumbers` list —
unchanged. -/
theorem deleteRandomNumber_absent_id_noop (s : AppState) (id : Int)
    (h : id ∉ ids s) :
    dispatch (deleteRandomNumber id) s = (.ok s, s) := by
  have hf : s.randomNumbers.filter (fun r => r.id != id) = s.randomNumbers := by
    rw [List.filter_eq_self]
    intro r hr
    simp only [bne_iff_ne, ne_eq, decide_eq_true_eq]
    intro hcontra
    exact h (hcontra ▸ List.mem_map_of_mem _ hr)
  simp [dispatch, produce, deleteRandomNumber, hf]

/-- Witness for C7: deleting id `5` from a single-entry list with id `0`
is a no-op. -/
theorem deleteRandomNumber_absent_id_noop_witness :
    dispatch (deleteRandomNumber 5)
        { channel := "release", os := "mac", randomNumbers := [{ value := 1, id := 0 }] } =
      (.ok { channel := "release", os := "mac", randomNumbers := [{ value := 1, id := 0 }] },
        { channel := "release", os := "mac", randomNumbers := [{ value := 1, id := 0 }] }) :=
  deleteRandomNumber_absent_id_noop _ 5 (by decide)

/-- C9: dispatching `changeOS('linux')` and then `changeChannel('nightly')`
from any state yields a final stored state with os `linux` and channel
`nightly`: the dispatches apply synchronously one after the other, so
neither update is lost (subscriber notification does not affect the
stored state). -/
theorem changeOS_then_changeChannel (s : AppState) :
    (stepAction (stepAction s (.changeOS "linux")) (.changeChannel "nightly")).os = "linux" ∧
      (stepAction (stepAction s (.changeOS "linux")) (.changeChannel "nightly")).channel =
        "nightly" :=
  ⟨rfl, rfl⟩

/-- C10: the initial state is exactly `{channel: 'release', os: 'mac',
randomNumbers: []}`: `isWaiting` is absent (reads as `undefined`,
modelled `none`) until a `setAPIWaitingStatus` dispatch first assigns it,
and `AppState` carries no `product` field at all. -/
theorem initStore_shape :
    initStore.channel = "release" ∧ initStore.os = "mac" ∧
      initStore.randomNumbers = [] ∧ initStore.isWaiting = none ∧
      ∀ (s : AppState) (tf : Bool),
        (stepAction s (.setAPIWaitingStatus tf)).isWaiting = some tf :=
  ⟨rfl, rfl, rfl, rfl, fun _ _ => rfl⟩

/-- C8: `queryString` serializes the `{os, channel}` projection by
sorting the keys (the JavaScript object literal lists `os` first, the
serialized output lists `channel` first) and joining `key=value` pairs
with `&`, independent of the field order of the parameter object; in
particular `{channel:'beta', os:'mac'}` serializes to
`"channel=beta&os=mac"`. -/
theorem queryString_sorted_serialization :
    (∀ a b : String,
        queryStringOf [("os", a), ("channel", b)] =
          queryStringOf [("channel", b), ("os", a)]) ∧
      (∀ s : AppState,
        queryString s = ("channel=" ++ s.channel) ++ "&" ++ ("os=" ++ s.os)) ∧
      queryStringOf [("channel", "beta"), ("os", "mac")] = "channel=beta&os=mac" :=
  ⟨fun _ _ => rfl, fun _ => rfl, rfl⟩

set_option maxHeartbeats 1600000 in
/-- C3: the composite routine of `requestNewNumbersFromAPI()`, run to
completion with no interleaved external dispatches, performs in order:
clear, set `isWaiting` true, suspend, ten `addRandomNumber` dispatches,
set `isWaiting` false.  After its first two dispatches (the part before
the suspension, i.e. immediately after invocation) `isWaiting` is true
and the list is empty; after completion the list has exactly 10 entries
with ids 0..9 and `isWaiting` is false. -/
theorem requestNewNumbersFromAPI_lifecycle (s : AppState) (rand : Nat → ℚ) :
    (runScript s ((requestNewNumbersFromAPI rand).take 2)).isWaiting = some true ∧
      (runScript s ((requestNewNumbersFromAPI rand).take 2)).randomNumbers = [] ∧
      (runScript s (requestNewNumbersFromAPI rand)).randomNumbers.length = 10 ∧
      ids (runScript s (requestNewNumbersFromAPI rand)) =
        [0, 1, 2, 3, 4, 5, 6, 7, 8, 9] ∧
      (runScript s (requestNewNumbersFromAPI rand)).isWaiting = some false := by
  refine ⟨rfl, rfl, ?_, ?_, ?_⟩ <;>
    simp [requestNewNumbersFromAPI, runScript, runStep, stepAction, dispatch, produce,
      Action.editor, clearRandomNumbers, setAPIWaitingStatus, addRandomNumber, getNextId,
      ids, List.range_succ]

/-- C2: `addRandomNumber` appends exactly one entry whose id is `0` on an
empty list and `1 + max(existing ids)` otherwise (for states whose ids
are non-negative, as the data model requires); concretely: adding to the
empty list yields id 0, adding again yields id 1, and after deleting the
sole entry with id 0 the next add yields id 0 again. -/
theorem addRandomNumber_appends_specNextId :
    (∀ (s : AppState) (v : ℚ), (∀ e ∈ s.randomNumbers, 0 ≤ e.id) →
        stepAction s (.addRandomNumber v) =
          { s with randomNumbers :=
              s.randomNumbers ++ [{ value := v, id := specNextId s.randomNumbers }] }) ∧
      ids (stepAction initStore (.addRandomNumber 10)) = [0] ∧
      ids (stepAction (stepAction initStore (.addRandomNumber 10))
        (.addRandomNumber 20)) = [0, 1] ∧
      ids (stepAction (stepAction (stepAction initStore (.addRandomNumber 10))
        (.deleteRandomNumber 0)) (.addRandomNumber 30)) = [0] := by
  refine ⟨?_, by decide, by decide, by decide⟩
  intro s v h
  simp [stepAction, dispatch, produce, Action.editor, addRandomNumber,
    getNextId_eq_specNextId s.randomNumbers h]

/-- Witness for C2: adding to the empty initial list appends the single
entry with the spec's next id. -/
theorem addRandomNumber_appends_specNextId_witness :
    stepAction initStore (.addRandomNumber 5) =
      { initStore with randomNumbers :=
          initStore.randomNumbers ++
            [{ value := 5, id := specNextId initStore.randomNumbers }] } :=
  addRandomNumber_appends_specNextId.1 initStore 5 (by decide)

/-- C6: every atomic operation preserves the data-model invariant that
`randomNumbers` entries have unique, non-negative integer ids, and the
invariant holds of the initial (empty-list) state. -/
theorem invariant_unique_nonneg_ids :
    Inv initStore ∧ ∀ (a : Action) (s : AppState), Inv s → Inv (stepAction s a) := by
  refine ⟨by decide, ?_⟩
  intro a s hs
  obtain ⟨hnd, hpos⟩ := hs
  cases a with
  | changeChannel ch => exact ⟨hnd, hpos⟩
  | changeOS os => exact ⟨hnd, hpos⟩
  | setAPIWaitingStatus tf => exact ⟨hnd, hpos⟩
  | clearRandomNumbers => exact ⟨List.nodup_nil, by simp [ids, stepAction, dispatch, produce,
      Action.editor, Store.clearRandomNumbers]⟩
  | addRandomNumber v =>
    have hids : ids (stepAction s (.addRandomNumber v)) =
        ids s ++ [getNextId s.randomNumbers] := by
      simp [ids, stepAction, dispatch, produce, Action.editor, Store.addRandomNumber]
    refine ⟨?_, ?_⟩
    · rw [hids, List.nodup_append]
      refine ⟨hnd, List.nodup_singleton _, ?_⟩
      rw [List.disjoint_singleton]
      intro hmem
      obtain ⟨e, he, heq⟩ := List.mem_map.mp hmem
      exact absurd heq (ne_of_lt (lt_getNextId s.randomNumbers e he))
    · rw [hids]
      intro x hx
      rcases List.mem_append.mp hx with h | h
      · exact hpos x h
      · exact (List.mem_singleton.mp h) ▸ getNextId_nonneg s.randomNumbers
  | randomizeNumber id v =>
    cases hf : s.randomNumbers.findIdx? (fun r => r.id = id) with
    | none =>
      have hstep : stepAction s (.randomizeNumber id v) = s := by
        simp [stepAction, dispatch, produce, Action.editor, Store.randomizeNumber, hf]
      rw [hstep]
      exact ⟨hnd, hpos⟩
    | some ind =>
      have hids : ids (stepAction s (.randomizeNumber id v)) = ids s := by
        simp [ids, stepAction, dispatch, produce, Action.editor, Store.randomizeNumber, hf]
        exact ids_modify_value s.randomNumbers v ind
      refine ⟨?_, ?_⟩
      · rw [hids]; exact hnd
      · rw [hids]; exact hpos
  | deleteRandomNumber id =>
    have hids : ids (stepAction s (.deleteRandomNumber id)) =
        (s.randomNumbers.filter (fun r => r.id != id)).map (fun e => e.id) := by
      simp [ids, stepAction, dispatch, produce, Action.editor, Store.deleteRandomNumber]
    refine ⟨?_, ?_⟩
    · rw [hids]
      exact List.Nodup.sublist (List.Sublist.map _ (List.filter_sublist _)) hnd
    · rw [hids]
      intro x hx
      obtain ⟨e, he, heq⟩ := List.mem_map.mp hx
      exact heq ▸ hpos e.id (List.mem_map_of_mem _ (List.mem_of_mem_filter he))

/-- Witness for C6: the invariant holds of the initial state and is kept
by a concrete `addRandomNumber` dispatch on it. -/
theorem invariant_unique_nonneg_ids_witness :
    Inv (stepAction initStore (.addRandomNumber 42)) :=
  invariant_unique_nonneg_ids.2 (.addRandomNumber 42) initStore (by decide)

/-- C4: an atomic action leaves every field outside the path it writes
unchanged (deep equality except at the written path), and in particular
`changeChannel(ch)` sets `channel` to any given `ch` — with no validation
against the option catalog, e.g. `"martian"` — while leaving `os`,
`randomNumbers` and `isWaiting` untouched.  The base state value itself
is never mutated: `produce` is a pure function of it. -/
theorem atomic_actions_frame (a : Action) (s : AppState) :
    (touchesChannel a = false → (stepAction s a).channel = s.channel) ∧
      (touchesOS a = false → (stepAction s a).os = s.os) ∧
      (touchesRandomNumbers a = false →
        (stepAction s a).randomNumbers = s.randomNumbers) ∧
      (touchesIsWaiting a = false → (stepAction s a).isWaiting = s.isWaiting) ∧
      (∀ ch : String, dispatch (changeChannel ch) s =
        (.ok { s with channel := ch }, { s with channel := ch })) ∧
      "martian" ∉ options.channel := by
  refine ⟨?_, ?_, ?_, ?_, fun ch => rfl, by decide⟩ <;>
    cases a <;>
      simp [touchesChannel, touchesOS, touchesRandomNumbers, touchesIsWaiting, stepAction,
        dispatch, produce, Action.editor, Store.changeChannel, Store.changeOS,
        Store.clearRandomNumbers, Store.addRandomNumber, Store.randomizeNumber,
        Store.deleteRandomNumber, Store.setAPIWaitingStatus] <;>
      split <;>
      · rename_i x s2 heq
        split at heq <;> first
          | (cases heq; rfl)
          | simp at heq

/-- Witness for C4: a dispatch that writes only `randomNumbers` leaves
`channel`, `os` and `isWaiting` of the initial state unchanged. -/
theorem atomic_actions_frame_witness :
    (stepAction initStore (.addRandomNumber 1)).channel = initStore.channel ∧
      (stepAction initStore (.addRandomNumber 1)).os = initStore.os ∧
      (stepAction initStore (.addRandomNumber 1)).isWaiting = initStore.isWaiting :=
  ⟨(atomic_actions_frame (.addRandomNumber 1) initStore).1 rfl,
    (atomic_actions_frame (.addRandomNumber 1) initStore).2.1 rfl,
    (atomic_actions_frame (.addRandomNumber 1) initStore).2.2.2.1 rfl⟩

end Store
